import Mathlib

/-!
Verification of the Watermark Genie batch watermarking tool
(`watermark_gienie.py`) against its natural-language specification.

The Python source is shallowly embedded: pure computations become Lean
functions over `ℕ`/`ℚ` (Python's float arithmetic on the small integer
inputs involved is modelled by exact rational arithmetic; `int(x)` on a
nonnegative value truncates toward zero, which is the floor `⌊x⌋₊`),
filesystem-dependent code is parameterised by an abstract file system,
and the in-place PIL operations are modelled by explicitly returning the
post-call contents of the caller's objects.
-/

namespace WatermarkGenie

/-- `SUPPORTED_FORMATS` constant from the source (line 70). -/
def SUPPORTED_FORMATS : List String :=
  [".jpg", ".jpeg", ".png", ".webp", ".tif", ".tiff", ".bmp"]

/-- The set of known-but-unsupported extensions hard-coded in
`find_supported_images` (lines 294 and 311). -/
def KNOWN_UNSUPPORTED : List String := [".avif", ".heic", ".gif", ".tga", ".pcx"]

/-- `MAX_BATCH_SIZE` constant from the source (line 71). -/
def MAX_BATCH_SIZE : ℕ := 5000

/-- `MAX_DIRECTORY_DEPTH` constant from the source (line 72). -/
def MAX_DIRECTORY_DEPTH : ℕ := 50

/-!
## Target watermark width

The orientation-aware sizing heuristic appears three times in the source,
with the same code at each site.  Each definition below is transcribed from
its own call site.  `int(x)` on the nonnegative float `x` is `⌊x⌋₊`;
`0.5` and `1.5` are exact binary floats, and on realistic image dimensions
the float divisions never round across an integer boundary, so rational
arithmetic is the faithful idealisation.
-/

/-- Target width as computed in `WatermarkGenieGUI._update_single_preview`
(lines 1074–1087): `is_portrait = base_height > base_width`, then the
four-branch `max(40, int(...))` table. -/
def target_width_preview (w h scale : ℕ) (autoScale : Bool) : ℕ :=
  let isPortrait : Bool := h > w
  if autoScale then
    if isPortrait then
      max 40 ⌊(w : ℚ) * 0.5⌋₊
    else
      max 40 ⌊(min w h : ℚ) * scale / 100⌋₊
  else
    if isPortrait then
      max 40 ⌊(w : ℚ) * scale / 100 * 1.5⌋₊
    else
      max 40 ⌊(w : ℚ) * scale / 100⌋₊

/-- Target width as computed in the GUI batch worker `process_single_file`
(lines 1283–1295): same four-branch table, with `min(image.size)` being
`min(width, height)`. -/
def target_width_batch (w h scale : ℕ) (autoScale : Bool) : ℕ :=
  let isPortrait : Bool := h > w
  if autoScale then
    if isPortrait then
      max 40 ⌊(w : ℚ) * 0.5⌋₊
    else
      max 40 ⌊(min w h : ℚ) * scale / 100⌋₊
  else
    if isPortrait then
      max 40 ⌊(w : ℚ) * scale / 100 * 1.5⌋₊
    else
      max 40 ⌊(w : ℚ) * scale / 100⌋₊

/-- Target width as computed in `WatermarkGenieCLI.run` (lines 1712–1724). -/
def target_width_cli (w h scale : ℕ) (autoScale : Bool) : ℕ :=
  let isPortrait : Bool := h > w
  if autoScale then
    if isPortrait then
      max 40 ⌊(w : ℚ) * 0.5⌋₊
    else
      max 40 ⌊(min w h : ℚ) * scale / 100⌋₊
  else
    if isPortrait then
      max 40 ⌊(w : ℚ) * scale / 100 * 1.5⌋₊
    else
      max 40 ⌊(w : ℚ) * scale / 100⌋₊

/-- The claim's formula for the target width, transcribed from the spec's
words (§4.2), which use `round` (round-half-up) in every branch.  Stated
over `ℚ` with Mathlib's `round : ℚ → ℤ`. -/
def target_width_spec_round (w h scale : ℕ) (autoScale : Bool) : ℤ :=
  if autoScale then
    if h > w then
      max 40 (round ((w : ℚ) * 0.5))
    else
      max 40 (round ((min w h : ℚ) * scale / 100))
  else
    if h > w then
      max 40 (round ((w : ℚ) * scale / 100 * 1.5))
    else
      max 40 (round ((w : ℚ) * scale / 100))

/-- The amended claim's formula: the same four-branch table with integer
truncation (floor) in place of `round`, written in plain natural-number
arithmetic. -/
def target_width_spec_floor (w h scale : ℕ) (autoScale : Bool) : ℕ :=
  if autoScale then
    if h > w then
      max 40 (w / 2)
    else
      max 40 (min w h * scale / 100)
  else
    if h > w then
      max 40 (3 * w * scale / 200)
    else
      max 40 (w * scale / 100)

/-!
## Resize to fit

`ImageProcessor.resize_maintain_aspect` (lines 142–165), restricted to the
size it computes.  An image is represented by its `(width, height)` pair;
the source returns `image.copy()` when no resize is needed (so the input
image object is not mutated) and otherwise a fresh resized image.
-/

/-- Size computed by `ImageProcessor.resize_maintain_aspect`:
unchanged if `max(width, height) <= max_dimension`, otherwise the longer
side is set to `max_dimension` and the shorter side to
`int(max_dimension * shorter / longer)`. -/
def resize_maintain_aspect (w h max_dimension : ℕ) : ℕ × ℕ :=
  if max w h ≤ max_dimension then (w, h)
  else if w ≥ h then
    (max_dimension, ⌊(max_dimension : ℚ) * h / w⌋₊)
  else
    (⌊(max_dimension : ℚ) * w / h⌋₊, max_dimension)

/-!
## PIL images and `apply_watermark`

A PIL image is modelled by its mode string, its dimensions, and its alpha
band (a list of 0–255 samples).  PIL's aliasing discipline, which the
embedding must track because `apply_watermark` receives a watermark object
shared across worker threads, is: `convert` and `resize` allocate and
return a fresh image, while `putalpha` mutates its receiver in place.
`apply_watermark` (lines 167–228) is therefore embedded as a function that
returns, besides the composited result, the post-call contents of the two
objects the caller passed in, plus the locally-prepared watermark actually
pasted (exposed for specification).
-/

structure PILImage where
  mode : String
  width : ℕ
  height : ℕ
  alpha : List ℕ
deriving DecidableEq

/-- `image.convert('RGBA')`: fresh image, alpha band fully opaque when the
source mode carried no alpha (the only way `apply_watermark` reaches it). -/
def convertRGBA (im : PILImage) : PILImage :=
  { mode := "RGBA", width := im.width, height := im.height,
    alpha := im.alpha.map fun _ => 255 }

/-- `image.resize((w, h), Image.LANCZOS)`: fresh image with the new
dimensions; the resampled band contents are outside this model. -/
def resizeImg (im : PILImage) (w h : ℕ) : PILImage :=
  { mode := im.mode, width := w, height := h, alpha := im.alpha }

/-- The in-place alpha scaling of lines 201–203:
`alpha.point(lambda p: int(p * opacity / 100))` followed by `putalpha`.
`p * opacity / 100` is exact-enough float arithmetic on 0–255 samples, so
`int()` is natural division. -/
def putalphaScaled (im : PILImage) (opacity : ℕ) : PILImage :=
  { im with alpha := im.alpha.map fun p => p * opacity / 100 }

/-- `result.paste(watermark, (x, y), watermark)` applied to `base.copy()`:
the result inherits the copy's mode, dimensions and alpha geometry; the
blended pixel contents are outside this model. -/
def pasteOnCopy (base : PILImage) (_wm : PILImage) (_x _y : ℤ) : PILImage :=
  { mode := base.mode, width := base.width, height := base.height,
    alpha := base.alpha }

structure ApplyWatermarkOut where
  result : PILImage
  /-- Contents of the caller's `base_image` object after the call. -/
  baseAfter : PILImage
  /-- Contents of the caller's `watermark` object after the call. -/
  watermarkAfter : PILImage
  /-- The locally prepared watermark that is pasted (the value of the
  local variable `watermark` at line 227). -/
  wmUsed : PILImage
deriving DecidableEq

/-- `ImageProcessor.apply_watermark` (lines 167–228).  The local variable
`watermark` starts aliased to the caller's object; `convert` (line 185) and
`resize` (line 197) rebind it to a fresh buffer, while `putalpha`
(line 203) mutates whatever buffer it currently holds — so the caller's
object is mutated exactly when no fresh buffer was made first and
`opacity < 100`.  The base image is only ever copied (line 226). -/
def apply_watermark (base watermark : PILImage) (position : String)
    (opacity : ℕ) (margin : ℤ) (target_width : ℕ) : ApplyWatermarkOut :=
  -- line 184–185: ensure RGBA; `convert` allocates a fresh image
  let wm1 : PILImage × Bool :=
    if watermark.mode ≠ "RGBA" then (convertRGBA watermark, true)
    else (watermark, false)
  -- line 188: target_width = max(target_width, 30)
  let tw := max target_width 30
  -- lines 191–197: downscale only when watermark.width > target_width;
  -- scale_factor = target_width / watermark.width,
  -- new size = (int(w * factor), int(h * factor)); `resize` is fresh
  let wm2 : PILImage × Bool :=
    if wm1.1.width > tw then
      (resizeImg wm1.1
        ⌊(wm1.1.width : ℚ) * ((tw : ℚ) / (wm1.1.width : ℚ))⌋₊
        ⌊(wm1.1.height : ℚ) * ((tw : ℚ) / (wm1.1.width : ℚ))⌋₊, true)
    else (wm1.1, wm1.2)
  -- lines 200–203: opacity < 100 mutates the current buffer in place
  let wm3 := if opacity < 100 then putalphaScaled wm2.1 opacity else wm2.1
  -- lines 206–223: anchor placement (Python // is floor division)
  let x : ℤ :=
    if position.contains 'L' then margin
    else if position.contains 'R' then
      (base.width : ℤ) - (wm3.width : ℤ) - margin
    else Int.fdiv ((base.width : ℤ) - (wm3.width : ℤ)) 2
  let y : ℤ :=
    if position.contains 'T' then margin
    else if position.contains 'B' then
      (base.height : ℤ) - (wm3.height : ℤ) - margin
    else Int.fdiv ((base.height : ℤ) - (wm3.height : ℤ)) 2
  -- lines 226–228: paste onto a copy of the base
  { result := pasteOnCopy base wm3 x y
    baseAfter := base
    watermarkAfter := if opacity < 100 ∧ wm2.2 = false then wm3 else watermark
    wmUsed := wm3 }

/-!
## Path validation and run entry points

A `pathlib.Path` is modelled by its `parts` list together with its
`.suffix` (the extension of the final component as pathlib computes it).
The file system is abstract: two predicates say which paths are existing
directories and which are existing files.  `Path.relative_to` is purely
lexical and succeeds exactly when the argument's parts are a prefix of the
receiver's parts (equal paths included).
-/

structure FsPath where
  parts : List String
  suffix : String
deriving DecidableEq

/-- Python's `str.lower()` on the ASCII format/extension strings this
program compares (character-wise lowercasing). -/
def lowerString (s : String) : String := String.mk (s.data.map Char.toLower)

/-- Python's `str.upper()` on the ASCII extension strings this program
compares (character-wise uppercasing). -/
def upperString (s : String) : String := String.mk (s.data.map Char.toUpper)

structure FileSystem where
  isDir : List String → Bool
  isFile : List String → Bool

/-- `output_dir.relative_to(input_dir)` succeeds iff `input_dir.parts` is
a prefix of `output_dir.parts`. -/
def relative_to_succeeds : List String → List String → Bool
  | [], _ => true
  | _ :: _, [] => false
  | a :: as, b :: bs => a == b && relative_to_succeeds as bs

/-- `FileManager.validate_paths` (lines 323–352). -/
def validate_paths (fs : FileSystem) (input_dir output_dir watermark_file : FsPath) :
    Bool × String :=
  if fs.isDir input_dir.parts = false then
    (false, "Input directory does not exist")
  else if fs.isFile watermark_file.parts = false then
    (false, "Watermark file does not exist")
  else if lowerString watermark_file.suffix ≠ ".png" then
    (false, "Watermark must be a PNG file")
  else if relative_to_succeeds input_dir.parts output_dir.parts then
    (false, "Output directory cannot be inside input directory")
  else
    (true, "Paths are valid")

/-- Outcome of the validation gate at the head of a run entry point. -/
inductive RunStart
  | aborted (msg : String)
  | started
deriving DecidableEq

/-- `WatermarkGenieGUI.start_processing` (lines 1196–1209): validation is
the first action; on failure it shows the error and returns before any
discovery, directory creation, or file access. -/
def gui_start_processing_gate (fs : FileSystem)
    (input_dir output_dir watermark_file : FsPath) : RunStart :=
  let v := validate_paths fs input_dir output_dir watermark_file
  if v.1 = false then .aborted v.2 else .started

/-- `WatermarkGenieCLI.run` (lines 1675–1683): validation is the first
action; on failure it prints the error and exits with status 1 before any
discovery, directory creation, or file access. -/
def cli_run_gate (fs : FileSystem)
    (input_dir output_dir watermark_file : FsPath) : RunStart :=
  let v := validate_paths fs input_dir output_dir watermark_file
  if v.1 = false then .aborted v.2 else .started

/-!
## Conflict handling in the GUI batch worker

The save stage of `process_single_file` (lines 1307–1343) together with
`WatermarkGenieGUI._check_file_exists` (lines 1404–1419).  The output
directory's contents are abstracted by a predicate on file names within
the output path's parent; write effects are collected in a list so that
"nothing was written" is expressible.
-/

/-- `_check_file_exists` (lines 1404–1419): `main_format`/`extra_format`
are `None` (source-preserving) or an encoder name such as `"JPEG"`. -/
def check_file_exists (ex : String → Bool) (outName : String)
    (main_format extra_format : Option String) : Bool :=
  (match main_format with
   | some f => ex (outName ++ "." ++ lowerString f)
   | none => [".jpg", ".jpeg", ".png", ".webp"].any fun e => ex (outName ++ e))
  || (match extra_format with
      | some f => ex (outName ++ "." ++ lowerString f)
      | none => false)

/-- Extension chosen by `ImageProcessor.save_image` (lines 230–251). -/
def save_image_suffix (format_type : String) : String :=
  if format_type = "JPEG" then ".jpg"
  else if format_type = "WEBP" then ".webp"
  else ".png"

/-- The format derived from the source file's extension in the
source-preserving branch (lines 1324–1326): uppercase the suffix, drop the
dot, normalise `JPG` to `JPEG`. -/
def original_format_of (srcSuffix : String) : String :=
  let f := (upperString srcSuffix).drop 1
  if f = "JPG" then "JPEG" else f

/-- Result of the save stage: the files actually written by `save_image`,
and the `output_file` field of the returned result record. -/
structure SaveOutcome where
  writes : List String
  output_file : String
deriving DecidableEq

/-- The save stage of `process_single_file` (lines 1307–1343),
parameterised by the existing-file predicate, the conflict mode
(`settings['overwrite_mode']`), the dry-run flag, the two format options,
the source suffix and the extensionless output name.  Returns the write
effects and the `output_file` field ( `'; '.join(saved_files)` if any,
else `'DRY RUN'`). -/
def process_single_file_save (ex : String → Bool) (overwrite_mode : String)
    (dry_run : Bool) (main_format extra_format : Option String)
    (srcSuffix outName : String) : SaveOutcome :=
  if dry_run then
    { writes := [], output_file := "DRY RUN" }
  else
    let should_process :=
      if check_file_exists ex outName main_format extra_format then
        if overwrite_mode = "skip" then false else true
      else true
    if should_process then
      let mainOut : List String × List String :=
        match main_format with
        | some f => ([outName ++ save_image_suffix f],
                     [outName ++ "." ++ lowerString f])
        | none =>
            let f := original_format_of srcSuffix
            ([outName ++ save_image_suffix f], [outName ++ srcSuffix])
      let extraOut : List String × List String :=
        match extra_format with
        | some f =>
            if main_format ≠ some f then
              ([outName ++ save_image_suffix f],
               [outName ++ "." ++ lowerString f])
            else ([], [])
        | none => ([], [])
      { writes := mainOut.1 ++ extraOut.1
        output_file := String.intercalate "; " (mainOut.2 ++ extraOut.2) }
    else
      { writes := [], output_file := "SKIPPED - File exists" }

/-!
## File discovery

`FileManager.find_supported_images` (lines 260–321), recursive branch.
A directory scan is a list of entries in traversal order; each entry
carries its name, its depth below the scanned root
(`len(file_path.parts) - len(directory.parts)`), whether it is a regular
file, its lowercased suffix, and whether `Image.open` succeeds on it.
-/

structure FileEntry where
  name : String
  depth : ℕ
  isFile : Bool
  suffixLower : String
  decodable : Bool
deriving DecidableEq

/-- The `for file_path in directory.rglob('*')` loop of lines 282–299,
with the batch-size check after every entry (lines 297–299). -/
def find_images_loop (max_depth : ℕ) :
    List FileEntry → List FileEntry → ℕ → List FileEntry × ℕ
  | [], images, ignored => (images, ignored)
  | f :: rest, images, ignored =>
    let st : List FileEntry × ℕ :=
      if f.depth ≤ max_depth ∧ f.isFile = true then
        if f.suffixLower ∈ SUPPORTED_FORMATS then
          if f.decodable = true then (images ++ [f], ignored)
          else (images, ignored + 1)
        else if f.suffixLower ∈ KNOWN_UNSUPPORTED then (images, ignored + 1)
        else (images, ignored)
      else (images, ignored)
    if MAX_BATCH_SIZE ≤ st.1.length then st
    else find_images_loop max_depth rest st.1 st.2

/-- `find_supported_images` on a directory whose recursive traversal yields
`entries`; `dirExists` is the `directory.is_dir()` guard of line 273. -/
def find_supported_images (dirExists : Bool) (entries : List FileEntry)
    (max_depth : ℕ) : List FileEntry × ℕ :=
  if dirExists = false then ([], 0)
  else find_images_loop max_depth entries [] 0

/-- An entry that reaches the supported-extension branch: a regular file
within the depth bound whose suffix is in the supported set. -/
def qualifies (max_depth : ℕ) (f : FileEntry) : Bool :=
  decide (f.depth ≤ max_depth) && f.isFile
    && decide (f.suffixLower ∈ SUPPORTED_FORMATS)

/-- A qualifying entry that decodes (gets appended to `images`). -/
def decodes (max_depth : ℕ) (f : FileEntry) : Bool :=
  qualifies max_depth f && f.decodable

/-- A qualifying entry that fails to decode (counted as ignored). -/
def failsDecode (max_depth : ℕ) (f : FileEntry) : Bool :=
  qualifies max_depth f && !f.decodable

/-- An entry that increments `ignored_count`: a qualifying entry that
fails to decode, or a file in the known-unsupported extension set. -/
def ignorable (max_depth : ℕ) (f : FileEntry) : Bool :=
  failsDecode max_depth f
    || (decide (f.depth ≤ max_depth) && f.isFile
        && decide (f.suffixLower ∈ KNOWN_UNSUPPORTED))

/-!
## The batch scheduler loop

In `WatermarkGenieGUI._process_images` (lines 1356–1372), every file is
submitted to the thread pool up front (the dict comprehension of
line 1359); the main loop then drains completions in completion order,
checking the cooperative stop flag before collecting each result and
breaking out as soon as it is observed set.  The loop is embedded over
the completion order (a permutation of the per-task results), with the
stop flag modelled by the number of loop iterations that run before it is
observed set.
-/

/-- Line 1359: one task is submitted per file, before any cancellation
check — dispatch of every task precedes the collection loop. -/
def batch_submit {α : Type _} (files : List α) : List α := files

/-- The `for future in cf.as_completed(...)` loop of lines 1361–1368:
before handling a completion the stop flag is polled (`break` when set);
otherwise the completion's result is appended to `results`.
`stopAfter` is the number of polls that see the flag unset. -/
def batch_collect_loop {α : Type _} : List α → ℕ → List α
  | [], _ => []
  | _ :: _, 0 => []
  | r :: rest, n + 1 => r :: batch_collect_loop rest n

/-!
## Specification predicates

Propositions used as the conclusions of the claim theorems, stated from
the (amended) claims' words over the embedded definitions.
-/

/-- The four-branch sizing table with integer truncation, applied by the
batch worker and the CLI, and the 40px floor. -/
def target_width_amended_spec (w h scale : ℕ) (autoScale : Bool) : Prop :=
  target_width_batch w h scale autoScale = target_width_spec_floor w h scale autoScale ∧
  target_width_cli w h scale autoScale = target_width_spec_floor w h scale autoScale ∧
  40 ≤ target_width_batch w h scale autoScale

/-- C3's characterisation of `resize_maintain_aspect`. -/
def resize_spec (w h m : ℕ) : Prop :=
  (max w h ≤ m → resize_maintain_aspect w h m = (w, h)) ∧
  (m < max w h →
    max (resize_maintain_aspect w h m).1 (resize_maintain_aspect w h m).2 = m ∧
    min (resize_maintain_aspect w h m).1 (resize_maintain_aspect w h m).2
      = m * min w h / max w h ∧
    ((min (resize_maintain_aspect w h m).1 (resize_maintain_aspect w h m).2 : ℕ) : ℚ)
      ≤ (m : ℚ) * ((min w h : ℕ) : ℚ) / ((max w h : ℕ) : ℚ) ∧
    (m : ℚ) * ((min w h : ℕ) : ℚ) / ((max w h : ℕ) : ℚ)
      < ((min (resize_maintain_aspect w h m).1 (resize_maintain_aspect w h m).2 : ℕ) : ℚ) + 1) ∧
  max (resize_maintain_aspect w h m).1 (resize_maintain_aspect w h m).2 ≤ max w h

/-- C4's characterisation of the watermark width used by
`apply_watermark`: the effective target is `max target_width 30`, the
scale step runs only when the watermark is wider than it, and the pasted
watermark is never wider than the original. -/
def composite_width_spec (base wm : PILImage) (position : String)
    (opacity : ℕ) (margin : ℤ) (target_width : ℕ) : Prop :=
  (apply_watermark base wm position opacity margin target_width).wmUsed.width
      = (if max target_width 30 < wm.width then max target_width 30 else wm.width) ∧
  (apply_watermark base wm position opacity margin target_width).wmUsed.width
      ≤ wm.width

/-- A batch watermark as `_process_images` shares it: decoded once,
already RGBA. -/
def shared_watermark : PILImage :=
  { mode := "RGBA", width := 20, height := 10, alpha := [255] }

/-- A base image for the C5 evaluation. -/
def c5_base_image : PILImage :=
  { mode := "RGB", width := 100, height := 100, alpha := [255] }

/-- C6's amended characterisation of the collection loop: over a
completion order that is a permutation of the per-task results, an
uncancelled run collects exactly the M results; a cancelled run collects
exactly the prefix of completions processed before the stop flag was
observed, so at most M, with no duplicates introduced. -/
def scheduler_collect_spec {α : Type} (taskResults completions : List α)
    (stopAfter : ℕ) : Prop :=
  (taskResults.length ≤ stopAfter →
    (batch_collect_loop completions stopAfter).Perm taskResults) ∧
  batch_collect_loop completions stopAfter = completions.take stopAfter ∧
  (batch_collect_loop completions stopAfter).length ≤ (batch_submit taskResults).length ∧
  (taskResults.Nodup → (batch_collect_loop completions stopAfter).Nodup)

/-- C7's conclusion: validation fails with a nonempty message and both
entry points abort at the validation gate, before any discovery or
file access. -/
def abort_on_nested_output (fs : FileSystem) (input_dir output_dir watermark_file : FsPath) :
    Prop :=
  (validate_paths fs input_dir output_dir watermark_file).1 = false ∧
  (validate_paths fs input_dir output_dir watermark_file).2 ≠ "" ∧
  gui_start_processing_gate fs input_dir output_dir watermark_file
    = RunStart.aborted (validate_paths fs input_dir output_dir watermark_file).2 ∧
  cli_run_gate fs input_dir output_dir watermark_file
    = RunStart.aborted (validate_paths fs input_dir output_dir watermark_file).2

/-- C8's conclusion: the existence probe fires exactly under the claim's
enumerated conditions, and in skip mode a firing probe suppresses all
writes and yields the SKIPPED placeholder. -/
def skip_conflict_spec (ex : String → Bool) (overwrite_mode : String) (dry_run : Bool)
    (main_format extra_format : Option String) (srcSuffix outName : String) : Prop :=
  (check_file_exists ex outName main_format extra_format = true ↔
    ((match main_format with
      | some f => ex (outName ++ "." ++ lowerString f) = true
      | none => ∃ e ∈ [".jpg", ".jpeg", ".png", ".webp"], ex (outName ++ e) = true) ∨
     (match extra_format with
      | some f => ex (outName ++ "." ++ lowerString f) = true
      | none => False))) ∧
  (check_file_exists ex outName main_format extra_format = true →
    process_single_file_save ex overwrite_mode dry_run main_format extra_format
        srcSuffix outName
      = { writes := [], output_file := "SKIPPED - File exists" })

/-- C9's amended conclusion: the assets are exactly the decodable
qualifying files (so their number is N − k), and the ignored count is at
least the number of qualifying files that fail to decode. -/
def discovery_spec (entries : List FileEntry) : Prop :=
  (find_supported_images true entries MAX_DIRECTORY_DEPTH).1
    = entries.filter (decodes MAX_DIRECTORY_DEPTH) ∧
  (find_supported_images true entries MAX_DIRECTORY_DEPTH).1.length
      + (entries.filter (failsDecode MAX_DIRECTORY_DEPTH)).length
    = (entries.filter (qualifies MAX_DIRECTORY_DEPTH)).length ∧
  (entries.filter (failsDecode MAX_DIRECTORY_DEPTH)).length
    ≤ (find_supported_images true entries MAX_DIRECTORY_DEPTH).2

/-- An all-good scanned file for the C9 counterexample. -/
def goodEntry (i : ℕ) : FileEntry :=
  { name := toString i, depth := 1, isFile := true,
    suffixLower := ".jpg", decodable := true }

/-- A traversal of 5001 decodable supported files. -/
def bigScan : List FileEntry := (List.range 5001).map goodEntry

/-- C10's conclusion: a valid result forces a `.png` watermark suffix,
and with the earlier checks passing, a non-`.png` suffix yields exactly
the PNG error. -/
def watermark_png_spec (fs : FileSystem) (input_dir output_dir watermark_file : FsPath) :
    Prop :=
  ((validate_paths fs input_dir output_dir watermark_file).1 = true →
    lowerString watermark_file.suffix = ".png") ∧
  (fs.isDir input_dir.parts = true →
    fs.isFile watermark_file.parts = true →
    lowerString watermark_file.suffix ≠ ".png" →
    validate_paths fs input_dir output_dir watermark_file
      = (false, "Watermark must be a PNG file"))

/-- An everything-exists file system for the witnesses. -/
def fsAll : FileSystem := { isDir := fun _ => true, isFile := fun _ => true }

/-- An existing-output predicate for the C8 witness. -/
def exPhoto : String → Bool := fun s => s == "photo.jpeg"

/-!
## Floor-conversion helpers
-/

/-- Floor of a rational product-quotient of naturals is natural division. -/
lemma floor_q_mul_div (a b c : ℕ) : ⌊(a : ℚ) * b / c⌋₊ = a * b / c := by
  rw [show (a : ℚ) * b / c = ((a * b : ℕ) : ℚ) / (c : ℕ) by push_cast; ring]
  rw [Nat.floor_div_nat, Nat.floor_natCast]

/-- Floor of `w * 0.5` over `ℚ` is `w / 2`. -/
lemma floor_q_half (w : ℕ) : ⌊(w : ℚ) * 0.5⌋₊ = w / 2 := by
  rw [show (w : ℚ) * 0.5 = ((w : ℕ) : ℚ) / ((2 : ℕ) : ℚ) by push_cast; ring]
  rw [Nat.floor_div_nat, Nat.floor_natCast]

/-- Floor of `w * s / 100 * 1.5` over `ℚ` is `3 * w * s / 200`. -/
lemma floor_q_scale_boost (w s : ℕ) :
    ⌊(w : ℚ) * s / 100 * 1.5⌋₊ = 3 * w * s / 200 := by
  rw [show (w : ℚ) * s / 100 * 1.5 = ((3 * w * s : ℕ) : ℚ) / ((200 : ℕ) : ℚ) by
    push_cast; ring]
  rw [Nat.floor_div_nat, Nat.floor_natCast]

/-- Floor of `w * s / 100` over `ℚ` is `w * s / 100` in `ℕ`. -/
lemma floor_q_scale (w s : ℕ) : ⌊(w : ℚ) * s / 100⌋₊ = w * s / 100 :=
  floor_q_mul_div w s 100

/-- `int(w * (t / w)) = t` for a positive width `w`: the no-op rescale of
line 194 lands exactly on the target width under exact arithmetic. -/
lemma floor_q_mul_div_self (w t : ℕ) (hw : 1 ≤ w) :
    ⌊(w : ℚ) * ((t : ℚ) / (w : ℚ))⌋₊ = t := by
  have hw0 : (w : ℚ) ≠ 0 := Nat.cast_ne_zero.mpr (by omega)
  rw [show (w : ℚ) * ((t : ℚ) / (w : ℚ)) = ((t : ℕ) : ℚ) by field_simp]
  exact Nat.floor_natCast t

/-- The code's target-width computation equals the floor-based
four-branch table in plain natural arithmetic. -/
lemma target_width_batch_eq_floor (w h scale : ℕ) (autoScale : Bool) :
    target_width_batch w h scale autoScale = target_width_spec_floor w h scale autoScale := by
  unfold target_width_batch target_width_spec_floor
  cases autoScale <;> by_cases hp : w < h <;>
    simp [hp, ← Nat.cast_min, floor_q_half, floor_q_scale, floor_q_scale_boost]

/-- The three call sites carry identical code. -/
lemma target_width_cli_eq_batch (w h scale : ℕ) (autoScale : Bool) :
    target_width_cli w h scale autoScale = target_width_batch w h scale autoScale := rfl

/-!
## Claim theorems
-/

/-- Claim C1, as stated, is false: the code truncates with `int(...)`
where the claim's table uses `round`.  At a 605×600 landscape base with
scalePercent 30 and autoScale off, `605 * 30 / 100 = 181.5`: the code
computes `max(40, int(181.5)) = 181`, the claim's table
`max(40, round(181.5)) = 182`. -/
theorem target_width_round_claim_false :
    (target_width_batch 605 600 30 false : ℤ)
      ≠ target_width_spec_round 605 600 30 false := by
  have h1 : target_width_batch 605 600 30 false = 181 := by
    rw [target_width_batch_eq_floor]
    norm_num [target_width_spec_floor]
  have h2 : target_width_spec_round 605 600 30 false = 182 := by
    unfold target_width_spec_round
    norm_num [round_eq]
  rw [h1, h2]
  decide

/-- Claim C1 (amended): with integer truncation in place of `round`, the
four-branch table is exactly the computed target width at the batch and
CLI call sites, the result is always at least 40, and the portrait
600×800 base with scalePercent 30 and autoScale off yields 270. -/
theorem target_width_floor_table (w h scale : ℕ) (autoScale : Bool)
    (hw : 1 ≤ w) (hh : 1 ≤ h) (hs1 : 1 ≤ scale) (hs2 : scale ≤ 100) :
    target_width_amended_spec w h scale autoScale ∧
    target_width_batch 600 800 30 false = 270 := by
  refine ⟨⟨target_width_batch_eq_floor w h scale autoScale, ?_, ?_⟩, ?_⟩
  · rw [target_width_cli_eq_batch]
    exact target_width_batch_eq_floor w h scale autoScale
  · unfold target_width_batch
    simp only []
    split_ifs <;> exact le_max_left 40 _
  · rw [target_width_batch_eq_floor]
    norm_num [target_width_spec_floor]

/-- Witness for the amended C1 at the claim's own example. -/
theorem target_width_floor_table_witness :
    (1 ≤ 600 ∧ 1 ≤ 800 ∧ 1 ≤ 30 ∧ 30 ≤ 100) ∧
    (target_width_amended_spec 600 800 30 false ∧
      target_width_batch 600 800 30 false = 270) :=
  ⟨by norm_num,
   target_width_floor_table 600 800 30 false (by norm_num) (by norm_num)
     (by norm_num) (by norm_num)⟩

/-- Claim C2: the GUI single-image preview, the GUI batch worker, and the
CLI batch loop compute the same target watermark width on every input. -/
theorem target_width_call_sites_agree (w h scale : ℕ) (autoScale : Bool) :
    target_width_preview w h scale autoScale = target_width_batch w h scale autoScale ∧
    target_width_batch w h scale autoScale = target_width_cli w h scale autoScale :=
  ⟨rfl, rfl⟩

/-- Claim C3: `resize_maintain_aspect` returns the size unchanged when the
longer side already fits; otherwise the longer side becomes exactly
`max_dimension`, the shorter side is the integer truncation of
`max_dimension * shorter / longer` (within 1px of the true ratio), and the
longer side never increases. -/
theorem resize_maintain_aspect_spec (w h m : ℕ) (hw : 1 ≤ w) (hh : 1 ≤ h) :
    resize_spec w h m := by
  by_cases hle : max w h ≤ m
  · refine ⟨fun _ => ?_, fun hlt => absurd hle (not_le.mpr hlt), ?_⟩
    · simp [resize_maintain_aspect, hle]
    · simp [resize_maintain_aspect, hle]
  · have hm : m < max w h := not_le.mp hle
    by_cases hwh : h ≤ w
    · have hres : resize_maintain_aspect w h m = (m, m * h / w) := by
        unfold resize_maintain_aspect
        rw [if_neg hle, if_pos hwh, floor_q_mul_div]
      have hdivle : m * h / w ≤ m := by
        calc m * h / w ≤ m * w / w := Nat.div_le_div_right (Nat.mul_le_mul_left m hwh)
        _ = m := Nat.mul_div_cancel m (by omega)
      have hmin : min w h = h := min_eq_right hwh
      have hmax : max w h = w := max_eq_left hwh
      refine ⟨fun hc => absurd hc hle, fun _ => ?_, ?_⟩
      · rw [hres]
        dsimp only
        refine ⟨max_eq_left hdivle, ?_, ?_, ?_⟩
        · rw [min_eq_right hdivle, hmin, hmax]
        · rw [min_eq_right hdivle, hmin, hmax, ← floor_q_mul_div m h w]
          exact Nat.floor_le (by positivity)
        · rw [min_eq_right hdivle, hmin, hmax, ← floor_q_mul_div m h w]
          exact Nat.lt_floor_add_one _
      · rw [hres]
        dsimp only
        rw [max_eq_left hdivle, hmax]
        omega
    · have hwh' : w ≤ h := le_of_not_le hwh
      have hres : resize_maintain_aspect w h m = (m * w / h, m) := by
        unfold resize_maintain_aspect
        rw [if_neg hle, if_neg hwh, floor_q_mul_div]
      have hdivle : m * w / h ≤ m := by
        calc m * w / h ≤ m * h / h := Nat.div_le_div_right (Nat.mul_le_mul_left m hwh')
        _ = m := Nat.mul_div_cancel m (by omega)
      have hmin : min w h = w := min_eq_left hwh'
      have hmax : max w h = h := max_eq_right hwh'
      refine ⟨fun hc => absurd hc hle, fun _ => ?_, ?_⟩
      · rw [hres]
        dsimp only
        refine ⟨max_eq_right hdivle, ?_, ?_, ?_⟩
        · rw [min_eq_left hdivle, hmin, hmax]
        · rw [min_eq_left hdivle, hmin, hmax, ← floor_q_mul_div m w h]
          exact Nat.floor_le (by positivity)
        · rw [min_eq_left hdivle, hmin, hmax, ← floor_q_mul_div m w h]
          exact Nat.lt_floor_add_one _
      · rw [hres]
        dsimp only
        rw [max_eq_right hdivle, hmax]
        omega

/-- Witness for C3 on a 1600×1200 image with `max_dimension` 1000. -/
theorem resize_maintain_aspect_spec_witness :
    (1 ≤ 1600 ∧ 1 ≤ 1200) ∧ resize_spec 1600 1200 1000 :=
  ⟨by norm_num, resize_maintain_aspect_spec 1600 1200 1000 (by norm_num) (by norm_num)⟩

lemma convertRGBA_width (im : PILImage) : (convertRGBA im).width = im.width := rfl

lemma putalphaScaled_width (im : PILImage) (o : ℕ) :
    (putalphaScaled im o).width = im.width := rfl

/-- The watermark actually pasted has width `max target_width 30` when the
incoming watermark is wider than that, and the incoming width otherwise. -/
lemma apply_watermark_wmUsed_width (base wm : PILImage) (pos : String)
    (opacity : ℕ) (margin : ℤ) (tw : ℕ) (hw : 1 ≤ wm.width) :
    (apply_watermark base wm pos opacity margin tw).wmUsed.width
      = if max tw 30 < wm.width then max tw 30 else wm.width := by
  have hW1 : (if wm.mode ≠ "RGBA" then (convertRGBA wm, true) else (wm, false)).1.width
      = wm.width := by
    split_ifs <;> rfl
  unfold apply_watermark
  dsimp only
  rw [apply_ite PILImage.width, putalphaScaled_width, ite_self, hW1]
  by_cases hgt : max tw 30 < wm.width
  · rw [if_pos hgt]
    dsimp only [resizeImg]
    rw [floor_q_mul_div_self wm.width (max tw 30) hw, if_pos hgt]
  · rw [if_neg hgt, hW1, if_neg hgt]

/-- Claim C4: `apply_watermark` enforces the 30px floor on the target
width, enters the scale step only when the watermark is wider than the
effective target, and never widens the watermark. -/
theorem apply_watermark_no_upscale (base wm : PILImage) (position : String)
    (opacity : ℕ) (margin : ℤ) (target_width : ℕ) (hw : 1 ≤ wm.width) :
    composite_width_spec base wm position opacity margin target_width := by
  have h := apply_watermark_wmUsed_width base wm position opacity margin target_width hw
  refine ⟨h, ?_⟩
  rw [h]
  split_ifs with hc
  · exact le_of_lt hc
  · exact le_refl _

/-- Witness for C4: a 500px-wide RGBA watermark against a 100px target. -/
theorem apply_watermark_no_upscale_witness :
    1 ≤ (PILImage.mk "RGBA" 500 200 [255]).width ∧
    composite_width_spec (PILImage.mk "RGB" 1000 600 [255])
      (PILImage.mk "RGBA" 500 200 [255]) "BR" 80 25 100 :=
  ⟨by norm_num,
   apply_watermark_no_upscale (PILImage.mk "RGB" 1000 600 [255])
     (PILImage.mk "RGBA" 500 200 [255]) "BR" 80 25 100 (by norm_num)⟩

/-- Claim C5 is refuted by the code: when the shared watermark is already
RGBA and at most as wide as the effective target, no fresh buffer is made
before `putalpha`, so an opacity below 100 mutates the caller's watermark
object in place (its alpha drops from 255 to `int(255*80/100) = 204`);
the base image, by contrast, is only copied. -/
theorem apply_watermark_mutates_shared_watermark :
    (apply_watermark c5_base_image shared_watermark "BR" 80 25 100).watermarkAfter
        = { mode := "RGBA", width := 20, height := 10, alpha := [204] } ∧
    (apply_watermark c5_base_image shared_watermark "BR" 80 25 100).watermarkAfter
        ≠ shared_watermark ∧
    (apply_watermark c5_base_image shared_watermark "BR" 80 25 100).baseAfter
        = c5_base_image := by
  refine ⟨?_, ?_, ?_⟩ <;> decide

lemma batch_collect_eq_take {α : Type} (l : List α) (n : ℕ) :
    batch_collect_loop l n = l.take n := by
  induction l generalizing n with
  | nil => cases n <;> rfl
  | cons a t ih =>
    cases n with
    | zero => rfl
    | succ k => simp [batch_collect_loop, ih]

/-- Claim C6 is refuted by the code: both tasks are submitted before the
loop starts, yet when the stop flag is observed after the first
completion the second task's result is never collected, so the collected
results do not cover every task dispatched before the flag was observed. -/
theorem scheduler_cancel_drops_inflight_results :
    batch_collect_loop (batch_submit [(0 : ℕ), 1]) 1 ≠ batch_submit [(0 : ℕ), 1] := by
  decide

/-- Claim C6 (amended): an uncancelled run collects exactly one result per
task, no duplicates, in completion order; once the stop flag is observed
the loop stops, so a cancelled run collects exactly the prefix of
completions handled before the flag was observed — at most M results,
still duplicate-free — while later completions are discarded. -/
theorem scheduler_collects_until_stop {α : Type}
    (taskResults completions : List α) (stopAfter : ℕ)
    (hperm : completions.Perm taskResults) :
    scheduler_collect_spec taskResults completions stopAfter := by
  refine ⟨?_, batch_collect_eq_take completions stopAfter, ?_, ?_⟩
  · intro hlen
    rw [batch_collect_eq_take,
      List.take_of_length_le (by rw [hperm.length_eq]; exact hlen)]
    exact hperm
  · rw [batch_collect_eq_take]
    calc (completions.take stopAfter).length ≤ completions.length :=
          by simp [List.length_take]
      _ = taskResults.length := hperm.length_eq
  · intro hnd
    rw [batch_collect_eq_take]
    exact (List.take_sublist _ _).nodup (hperm.nodup_iff.mpr hnd)

/-- Witness for the amended C6: two tasks completing in reverse order,
no cancellation. -/
theorem scheduler_collects_until_stop_witness :
    ([20, 10] : List ℕ).Perm [10, 20] ∧ scheduler_collect_spec [10, 20] [20, 10] 2 :=
  ⟨by decide, scheduler_collects_until_stop [10, 20] [20, 10] 2 (by decide)⟩

/-- Claim C7: whenever the output directory equals the input directory or
lies beneath it, validation fails with an explicit message and both the
GUI and the CLI entry points abort at the validation gate, before any
file is read or written. -/
theorem nested_output_rejected (fs : FileSystem)
    (input_dir output_dir watermark_file : FsPath)
    (hnest : relative_to_succeeds input_dir.parts output_dir.parts = true) :
    abort_on_nested_output fs input_dir output_dir watermark_file := by
  have h1 : (validate_paths fs input_dir output_dir watermark_file).1 = false ∧
      (validate_paths fs input_dir output_dir watermark_file).2 ≠ "" := by
    unfold validate_paths
    split_ifs with c1 c2 c3
    · exact ⟨rfl, by decide⟩
    · exact ⟨rfl, by decide⟩
    · exact ⟨rfl, by decide⟩
    · exact ⟨rfl, by decide⟩
  refine ⟨h1.1, h1.2, ?_, ?_⟩
  · unfold gui_start_processing_gate
    rw [if_pos h1.1]
  · unfold cli_run_gate
    rw [if_pos h1.1]

/-- Witness for C7: output directory one level inside the input
directory. -/
theorem nested_output_rejected_witness :
    relative_to_succeeds ["in"] ["in", "sub"] = true ∧
    abort_on_nested_output fsAll (FsPath.mk ["in"] "") (FsPath.mk ["in", "sub"] "")
      (FsPath.mk ["logo.png"] ".png") :=
  ⟨by decide,
   nested_output_rejected fsAll (FsPath.mk ["in"] "") (FsPath.mk ["in", "sub"] "")
     (FsPath.mk ["logo.png"] ".png") (by decide)⟩

/-- Claim C8: in skip mode with a pre-existing output file (under exactly
the enumerated conditions: primary-format file, any of the four common
extensions in source-preserving mode, or the extra-format file), the save
stage writes nothing and returns the SKIPPED placeholder. -/
theorem skip_mode_writes_nothing (ex : String → Bool) (overwrite_mode : String)
    (dry_run : Bool) (main_format extra_format : Option String)
    (srcSuffix outName : String)
    (hmode : overwrite_mode = "skip") (hdry : dry_run = false) :
    skip_conflict_spec ex overwrite_mode dry_run main_format extra_format
      srcSuffix outName := by
  subst hmode hdry
  constructor
  · cases main_format <;> cases extra_format <;>
      simp [check_file_exists, List.any_eq_true]
  · intro hex
    unfold process_single_file_save
    simp [hex]

/-- Witness for C8: JPEG primary output already exists. -/
theorem skip_mode_writes_nothing_witness :
    "skip" = "skip" ∧ false = false ∧
    skip_conflict_spec exPhoto "skip" false (some "JPEG") none ".jpg" "photo" :=
  ⟨rfl, rfl,
   skip_mode_writes_nothing exPhoto "skip" false (some "JPEG") none ".jpg" "photo"
     rfl rfl⟩

/-- Claim C10: validation accepts only watermark files whose suffix
lowercases to `.png`; when the input directory and watermark file exist,
any other suffix yields exactly the PNG error message. -/
theorem watermark_must_be_png (fs : FileSystem)
    (input_dir output_dir watermark_file : FsPath) :
    watermark_png_spec fs input_dir output_dir watermark_file := by
  constructor
  · intro hv
    unfold validate_paths at hv
    split_ifs at hv with c1 c2 c3 c4 <;> simp_all
  · intro hdir hfile hsuf
    unfold validate_paths
    rw [if_neg (by simp [hdir]), if_neg (by simp [hfile]), if_pos hsuf]

/-- Witness for C10: an existing `.webp` watermark is rejected with the
PNG message. -/
theorem watermark_must_be_png_witness :
    fsAll.isDir ["in"] = true ∧ fsAll.isFile ["logo.webp"] = true ∧
    lowerString (FsPath.mk ["logo.webp"] ".webp").suffix ≠ ".png" ∧
    validate_paths fsAll (FsPath.mk ["in"] "") (FsPath.mk ["out"] "")
        (FsPath.mk ["logo.webp"] ".webp")
      = (false, "Watermark must be a PNG file") :=
  ⟨rfl, rfl, by decide,
   (watermark_must_be_png fsAll (FsPath.mk ["in"] "") (FsPath.mk ["out"] "")
       (FsPath.mk ["logo.webp"] ".webp")).2 rfl rfl (by decide)⟩

lemma qualifies_iff (d : ℕ) (f : FileEntry) :
    qualifies d f = true ↔
      f.depth ≤ d ∧ f.isFile = true ∧ f.suffixLower ∈ SUPPORTED_FORMATS := by
  simp [qualifies, Bool.and_eq_true, decide_eq_true_eq, and_assoc]

lemma decodes_iff (d : ℕ) (f : FileEntry) :
    decodes d f = true ↔
      f.depth ≤ d ∧ f.isFile = true ∧ f.suffixLower ∈ SUPPORTED_FORMATS ∧
        f.decodable = true := by
  simp [decodes, Bool.and_eq_true, qualifies_iff, and_assoc]

lemma supported_not_known (s : String) (hs : s ∈ SUPPORTED_FORMATS) :
    s ∉ KNOWN_UNSUPPORTED := by
  simp only [SUPPORTED_FORMATS, List.mem_cons, List.not_mem_nil, or_false] at hs
  rcases hs with rfl | rfl | rfl | rfl | rfl | rfl | rfl <;> decide

/-- Decodable and non-decodable qualifying entries partition the
qualifying entries. -/
lemma length_filter_decode_partition (d : ℕ) (l : List FileEntry) :
    (l.filter (decodes d)).length + (l.filter (failsDecode d)).length
      = (l.filter (qualifies d)).length := by
  induction l with
  | nil => rfl
  | cons f t ih =>
    by_cases hq : qualifies d f = true
    · by_cases hd : f.decodable = true
      · have h1 : decodes d f = true := by simp [decodes, hq, hd]
        have h2 : failsDecode d f = false := by simp [failsDecode, hq, hd]
        simp [List.filter_cons, h1, h2, hq]
        omega
      · have hd' : f.decodable = false := by
          cases hb : f.decodable
          · rfl
          · exact absurd hb hd
        have h1 : decodes d f = false := by simp [decodes, hd']
        have h2 : failsDecode d f = true := by simp [failsDecode, hq, hd']
        simp [List.filter_cons, h1, h2, hq]
        omega
    · have hq' : qualifies d f = false := by
        cases hb : qualifies d f
        · rfl
        · exact absurd hb hq
      have h1 : decodes d f = false := by simp [decodes, hq']
      have h2 : failsDecode d f = false := by simp [failsDecode, hq']
      simp [List.filter_cons, h1, h2, hq']
      omega

/-- Every qualifying non-decodable entry raises the ignored count. -/
lemma length_filter_fails_le_ignorable (d : ℕ) (l : List FileEntry) :
    (l.filter (failsDecode d)).length ≤ (l.filter (ignorable d)).length := by
  induction l with
  | nil => exact le_refl _
  | cons f t ih =>
    by_cases hf : failsDecode d f = true
    · have hi : ignorable d f = true := by simp [ignorable, hf]
      simp [List.filter_cons, hf, hi]
      omega
    · have hf' : failsDecode d f = false := by
        cases hb : failsDecode d f
        · rfl
        · exact absurd hb hf
      by_cases hi : ignorable d f = true
      · simp [List.filter_cons, hf', hi]
        omega
      · have hi' : ignorable d f = false := by
          cases hb : ignorable d f
          · rfl
          · exact absurd hb hi
        simp [List.filter_cons, hf', hi']
        exact ih

/-- Classification of one loop step, factored out of the two loop lemmas:
the state update of lines 282–296 appends exactly the decodable qualifying
entries and counts exactly the ignorable ones. -/
lemma find_images_step (d : ℕ) (f : FileEntry) (images : List FileEntry) (ign : ℕ) :
    (if f.depth ≤ d ∧ f.isFile = true then
        if f.suffixLower ∈ SUPPORTED_FORMATS then
          if f.decodable = true then (images ++ [f], ign)
          else (images, ign + 1)
        else if f.suffixLower ∈ KNOWN_UNSUPPORTED then (images, ign + 1)
        else (images, ign)
      else (images, ign))
      = (images ++ (if decodes d f = true then [f] else []),
         ign + (if ignorable d f = true then 1 else 0)) := by
  by_cases hq : f.depth ≤ d ∧ f.isFile = true
  · by_cases hs : f.suffixLower ∈ SUPPORTED_FORMATS
    · by_cases hd : f.decodable = true
      · have h1 : decodes d f = true := by
          rw [decodes_iff]
          exact ⟨hq.1, hq.2, hs, hd⟩
        have h2 : ignorable d f = false := by
          have hk := supported_not_known _ hs
          simp [ignorable, failsDecode, qualifies, hd, hk]
        simp [hq, hs, hd, h1, h2]
      · have hd' : f.decodable = false := by
          cases hb : f.decodable
          · rfl
          · exact absurd hb hd
        have h1 : decodes d f = false := by simp [decodes, hd']
        have h2 : ignorable d f = true := by
          simp [ignorable, failsDecode, qualifies, hq.1, hq.2, hs, hd']
        simp [hq, hs, hd', h1, h2]
    · have h1 : decodes d f = false := by
        cases hb : decodes d f
        · rfl
        · rw [decodes_iff] at hb
          exact absurd hb.2.2.1 hs
      by_cases hk : f.suffixLower ∈ KNOWN_UNSUPPORTED
      · have h2 : ignorable d f = true := by
          simp [ignorable, hq.1, hq.2, hk]
        simp [hq, hs, hk, h1, h2]
      · have h2 : ignorable d f = false := by
          simp [ignorable, failsDecode, qualifies, hs, hk]
        simp [hq, hs, hk, h1, h2]
  · have hnq : (decide (f.depth ≤ d) && f.isFile) = false := by
      rcases not_and_or.mp hq with hnd | hnf
      · simp [hnd]
      · have : f.isFile = false := by
          cases hb : f.isFile
          · rfl
          · exact absurd hb hnf
        simp [this]
    have h1 : decodes d f = false := by simp [decodes, qualifies, hnq]
    have h2 : ignorable d f = false := by
      simp [ignorable, failsDecode, qualifies, hnq]
    simp [hq, h1, h2]

/-- As long as fewer decodable qualifying entries remain than would fill
the accumulator up to `MAX_BATCH_SIZE`, the cap never fires and the loop
collects every decodable qualifying entry and counts every ignorable
one. -/
lemma find_images_loop_no_cap (d : ℕ) (l : List FileEntry) :
    ∀ (images : List FileEntry) (ign : ℕ),
      images.length + (l.filter (decodes d)).length < MAX_BATCH_SIZE →
      find_images_loop d l images ign
        = (images ++ l.filter (decodes d), ign + (l.filter (ignorable d)).length) := by
  induction l with
  | nil => intro images ign _; simp [find_images_loop]
  | cons f t ih =>
    intro images ign hcap
    rw [show find_images_loop d (f :: t) images ign
        = (let st := (if f.depth ≤ d ∧ f.isFile = true then
              if f.suffixLower ∈ SUPPORTED_FORMATS then
                if f.decodable = true then (images ++ [f], ign)
                else (images, ign + 1)
              else if f.suffixLower ∈ KNOWN_UNSUPPORTED then (images, ign + 1)
              else (images, ign)
            else (images, ign));
            if MAX_BATCH_SIZE ≤ st.1.length then st
            else find_images_loop d t st.1 st.2) from rfl]
    rw [find_images_step]
    by_cases hdec : decodes d f = true
    · have hflt : (f :: t).filter (decodes d) = f :: t.filter (decodes d) :=
        List.filter_cons_of_pos hdec
      rw [hflt] at hcap
      simp only [List.length_cons] at hcap
      have hlen : ¬ (MAX_BATCH_SIZE ≤ (images ++ [f]).length) := by
        simp only [List.length_append, List.length_singleton]
        omega
      simp only [hdec, if_true]
      rw [if_neg (by simpa using hlen)]
      rw [ih (images ++ [f]) _ (by simp; omega)]
      rw [Prod.mk.injEq]
      constructor
      · rw [hflt]
        simp
      · rw [List.filter_cons]
        by_cases hig : ignorable d f = true
        · simp [hig]
          omega
        · have hig' : ignorable d f = false := by
            cases hb : ignorable d f
            · rfl
            · exact absurd hb hig
          simp [hig']
    · have hdec' : decodes d f = false := by
        cases hb : decodes d f
        · rfl
        · exact absurd hb hdec
      have hflt : (f :: t).filter (decodes d) = t.filter (decodes d) :=
        List.filter_cons_of_neg (by simp [hdec'])
      rw [hflt] at hcap
      have hlen : ¬ (MAX_BATCH_SIZE ≤ (images ++ []).length) := by
        simp only [List.append_nil]
        omega
      simp only [hdec', if_false, Bool.false_eq_true]
      rw [if_neg (by simpa using hlen)]
      rw [List.append_nil]
      rw [ih images _ (by omega)]
      rw [Prod.mk.injEq]
      constructor
      · rw [hflt]
      · rw [List.filter_cons]
        by_cases hig : ignorable d f = true
        · simp [hig]
          omega
        · have hig' : ignorable d f = false := by
            cases hb : ignorable d f
            · rfl
            · exact absurd hb hig
          simp [hig']

/-- Up to the cap inclusively, the asset list is still exactly the
decodable qualifying entries (when the cap is hit on the last append, the
loop stops with everything already collected). -/
lemma find_images_loop_le_cap (d : ℕ) (l : List FileEntry) :
    ∀ (images : List FileEntry) (ign : ℕ),
      images.length + (l.filter (decodes d)).length ≤ MAX_BATCH_SIZE →
      (find_images_loop d l images ign).1 = images ++ l.filter (decodes d) := by
  induction l with
  | nil => intro images ign _; simp [find_images_loop]
  | cons f t ih =>
    intro images ign hcap
    rw [show find_images_loop d (f :: t) images ign
        = (let st := (if f.depth ≤ d ∧ f.isFile = true then
              if f.suffixLower ∈ SUPPORTED_FORMATS then
                if f.decodable = true then (images ++ [f], ign)
                else (images, ign + 1)
              else if f.suffixLower ∈ KNOWN_UNSUPPORTED then (images, ign + 1)
              else (images, ign)
            else (images, ign));
            if MAX_BATCH_SIZE ≤ st.1.length then st
            else find_images_loop d t st.1 st.2) from rfl]
    rw [find_images_step]
    by_cases hdec : decodes d f = true
    · have hflt : (f :: t).filter (decodes d) = f :: t.filter (decodes d) :=
        List.filter_cons_of_pos hdec
      rw [hflt] at hcap ⊢
      simp only [List.length_cons] at hcap
      simp only [hdec, if_true]
      by_cases hstop : MAX_BATCH_SIZE ≤ (images ++ [f]).length
      · have h0 : (t.filter (decodes d)).length = 0 := by
          simp only [List.length_append, List.length_singleton] at hstop
          omega
        rw [if_pos (by simpa using hstop)]
        rw [List.length_eq_zero.mp h0]
      · rw [if_neg (by simpa using hstop)]
        rw [ih (images ++ [f]) _ (by simp; omega)]
        simp
    · have hdec' : decodes d f = false := by
        cases hb : decodes d f
        · rfl
        · exact absurd hb hdec
      have hflt : (f :: t).filter (decodes d) = t.filter (decodes d) :=
        List.filter_cons_of_neg (by simp [hdec'])
      rw [hflt] at hcap ⊢
      simp only [hdec', if_false, Bool.false_eq_true, List.append_nil]
      by_cases hstop : MAX_BATCH_SIZE ≤ images.length
      · have h0 : (t.filter (decodes d)).length = 0 := by omega
        rw [if_pos hstop]
        rw [List.length_eq_zero.mp h0]
        simp
      · rw [if_neg hstop]
        exact ih images _ (by omega)

/-- On a traversal of only decodable qualifying entries, the loop fills
the accumulator until the cap. -/
lemma find_images_loop_allgood (d : ℕ) (l : List FileEntry) :
    ∀ (images : List FileEntry) (ign : ℕ),
      (∀ f ∈ l, decodes d f = true) → images.length < MAX_BATCH_SIZE →
      (find_images_loop d l images ign).1.length
        = min (images.length + l.length) MAX_BATCH_SIZE := by
  induction l with
  | nil =>
    intro images ign _ hlen
    simp only [find_images_loop, List.length_nil, Nat.add_zero]
    rw [Nat.min_eq_left (le_of_lt hlen)]
  | cons f t ih =>
    intro images ign hgood hlen
    have hdec : decodes d f = true := hgood f (List.mem_cons_self f t)
    obtain ⟨h1, h2, h3, h4⟩ := (decodes_iff d f).mp hdec
    rw [show find_images_loop d (f :: t) images ign
        = (let st := (if f.depth ≤ d ∧ f.isFile = true then
              if f.suffixLower ∈ SUPPORTED_FORMATS then
                if f.decodable = true then (images ++ [f], ign)
                else (images, ign + 1)
              else if f.suffixLower ∈ KNOWN_UNSUPPORTED then (images, ign + 1)
              else (images, ign)
            else (images, ign));
            if MAX_BATCH_SIZE ≤ st.1.length then st
            else find_images_loop d t st.1 st.2) from rfl]
    simp only [h3, h4, and_true, if_true, if_pos (And.intro h1 h2)]
    by_cases hstop : MAX_BATCH_SIZE ≤ (images ++ [f]).length
    · rw [if_pos hstop]
      have h5 : (images ++ [f]).length = MAX_BATCH_SIZE := by
        simp only [List.length_append, List.length_singleton] at hstop ⊢
        omega
      have h6 : MAX_BATCH_SIZE ≤ images.length + (f :: t).length := by
        simp only [List.length_append, List.length_singleton] at hstop
        simp only [List.length_cons]
        omega
      rw [h5, Nat.min_eq_right h6]
    · rw [if_neg hstop]
      rw [ih (images ++ [f]) ign (fun g hg => hgood g (List.mem_cons_of_mem f hg))
        (by simp only [List.length_append, List.length_singleton] at hstop ⊢; omega)]
      have harith : (images ++ [f]).length + t.length = images.length + (f :: t).length := by
        simp only [List.length_append, List.length_singleton, List.length_cons, List.length_nil]
        omega
      rw [harith]

/-- Claim C9 is refuted by the code at a directory of 5001 decodable
supported files: `N = 5001`, `k = 0`, but the scan stops at the
`MAX_BATCH_SIZE` cap and returns only 5000 assets, not `N - k`. -/
theorem discovery_caps_at_batch_size :
    bigScan.length = 5001 ∧
    (∀ f ∈ bigScan, decodes MAX_DIRECTORY_DEPTH f = true) ∧
    (find_supported_images true bigScan MAX_DIRECTORY_DEPTH).1.length = 5000 := by
  have hgood : ∀ f ∈ bigScan, decodes MAX_DIRECTORY_DEPTH f = true := by
    intro f hf
    simp only [bigScan, List.mem_map] at hf
    obtain ⟨i, _, rfl⟩ := hf
    rw [decodes_iff]
    refine ⟨by simp [goodEntry, MAX_DIRECTORY_DEPTH], rfl,
      by simp [goodEntry, SUPPORTED_FORMATS], rfl⟩
  refine ⟨by simp [bigScan], hgood, ?_⟩
  unfold find_supported_images
  rw [if_neg (by decide)]
  rw [find_images_loop_allgood MAX_DIRECTORY_DEPTH bigScan [] 0 hgood (by decide)]
  simp only [bigScan, List.length_nil, List.length_map, List.length_range, Nat.zero_add]
  decide

/-- Claim C9 (amended): provided the directory holds at most
`MAX_BATCH_SIZE` (5000) supported-extension files, the scan returns
exactly the decodable ones — `N - k` assets — and counts at least the `k`
decode failures as ignored; no decode failure aborts the scan. -/
theorem discovery_counts (entries : List FileEntry)
    (hcap : (entries.filter (qualifies MAX_DIRECTORY_DEPTH)).length ≤ MAX_BATCH_SIZE) :
    discovery_spec entries := by
  have hpart := length_filter_decode_partition MAX_DIRECTORY_DEPTH entries
  have hassets : (find_supported_images true entries MAX_DIRECTORY_DEPTH).1
      = entries.filter (decodes MAX_DIRECTORY_DEPTH) := by
    unfold find_supported_images
    rw [if_neg (by decide)]
    exact find_images_loop_le_cap MAX_DIRECTORY_DEPTH entries [] 0 (by simp; omega)
  refine ⟨hassets, ?_, ?_⟩
  · rw [hassets]
    exact hpart
  · by_cases hk : (entries.filter (failsDecode MAX_DIRECTORY_DEPTH)).length = 0
    · rw [hk]
      exact Nat.zero_le _
    · have hlt : (entries.filter (decodes MAX_DIRECTORY_DEPTH)).length
          < MAX_BATCH_SIZE := by omega
      have hloop := find_images_loop_no_cap MAX_DIRECTORY_DEPTH entries [] 0
        (by simpa using hlt)
      unfold find_supported_images
      rw [if_neg (by decide), hloop]
      simpa using length_filter_fails_le_ignorable MAX_DIRECTORY_DEPTH entries

/-- Witness for the amended C9: a two-file directory with one decode
failure. -/
theorem discovery_counts_witness :
    (([FileEntry.mk "a" 1 true ".jpg" true, FileEntry.mk "b" 1 true ".png" false].filter
        (qualifies MAX_DIRECTORY_DEPTH)).length ≤ MAX_BATCH_SIZE) ∧
    discovery_spec [FileEntry.mk "a" 1 true ".jpg" true,
      FileEntry.mk "b" 1 true ".png" false] :=
  ⟨by decide,
   discovery_counts [FileEntry.mk "a" 1 true ".jpg" true,
     FileEntry.mk "b" 1 true ".png" false] (by decide)⟩

end WatermarkGenie
